import Mathlib

/-!
Verification of the resilient data-layer core of the voice_ai_2 repository:
the database circuit breaker (call_transcription_storage.py,
DatabaseCircuitBreaker), the write-batching path (transcription/handler.py),
and the two-tier RAG result cache (simple_rag_v2.py, UltraFastRAGSystem).
Each Python object is embedded as an explicit Lean state type and each method
as a pure state-transition function; time is passed explicitly (milliseconds
as Int, matching time.time() * 1000).
-/

namespace VoiceAI

/-! ## Circuit breaker (call_transcription_storage.py, DatabaseCircuitBreaker) -/

/-- States of the breaker, the string constants CLOSED, OPEN, HALF_OPEN in the
source. -/
inductive BreakerState where
  | CLOSED
  | OPEN
  | HALF_OPEN
  deriving DecidableEq, Repr

/-- State of DatabaseCircuitBreaker: threshold and timeout are the constructor
arguments, failure_count starts at 0, last_failure_time starts at None, state
starts CLOSED. Times are milliseconds (time.time() * 1000) as Int. -/
structure DatabaseCircuitBreaker where
  threshold : Nat
  timeout : Int
  failure_count : Nat
  last_failure_time : Option Int
  state : BreakerState
  deriving DecidableEq, Repr

/-- The constructor DatabaseCircuitBreaker.__init__ with explicit threshold
and timeout values. -/
def mkBreaker (threshold : Nat) (timeout : Int) : DatabaseCircuitBreaker :=
  { threshold := threshold
    timeout := timeout
    failure_count := 0
    last_failure_time := none
    state := .CLOSED }

/-- Observable outcome of one execute call: the wrapped operation returned
normally, the wrapped operation raised and the error was re-raised, the call
was rejected with the circuit-open exception, or the subtraction
time.time() * 1000 - None raised a TypeError. -/
inductive ExecResult where
  | ok
  | opError
  | circuitOpen
  | typeError
  deriving DecidableEq, Repr

/-- DatabaseCircuitBreaker.record_failure: increment failure_count, stamp
last_failure_time with the current time, and set state OPEN exactly when the
new count reaches the threshold (otherwise the state is left unchanged). -/
def record_failure (cb : DatabaseCircuitBreaker) (now : Int) : DatabaseCircuitBreaker :=
  let fc := cb.failure_count + 1
  { cb with
    failure_count := fc
    last_failure_time := some now
    state := if cb.threshold ≤ fc then .OPEN else cb.state }

/-- DatabaseCircuitBreaker.reset: zero the failure count and close the
breaker (called on every successful operation). -/
def breakerReset (cb : DatabaseCircuitBreaker) : DatabaseCircuitBreaker :=
  { cb with failure_count := 0, state := .CLOSED }

/-- The try block of execute: run the operation (opSucceeds tells whether the
awaited operation returns or raises); on success reset, on failure
record_failure and re-raise. The Bool component records that the operation
was invoked. -/
def runOperation (cb : DatabaseCircuitBreaker) (now : Int) (opSucceeds : Bool) :
    DatabaseCircuitBreaker × ExecResult × Bool :=
  if opSucceeds then (breakerReset cb, .ok, true)
  else (record_failure cb now, .opError, true)

/-- DatabaseCircuitBreaker.execute: in state OPEN, compare the elapsed time
against the timeout (a TypeError if last_failure_time is still None); move to
HALF_OPEN and proceed when the timeout has elapsed, otherwise raise the
circuit-open exception without invoking the operation. In any other state,
invoke the operation directly. -/
def execute (cb : DatabaseCircuitBreaker) (now : Int) (opSucceeds : Bool) :
    DatabaseCircuitBreaker × ExecResult × Bool :=
  match cb.state with
  | .OPEN =>
    match cb.last_failure_time with
    | none => (cb, .typeError, false)
    | some t =>
      if cb.timeout < now - t then
        runOperation { cb with state := .HALF_OPEN } now opSucceeds
      else
        (cb, .circuitOpen, false)
  | _ => runOperation cb now opSucceeds

/-- Breaker states reachable from a freshly constructed breaker by any
sequence of execute calls. -/
inductive BreakerReachable (t : Nat) (T : Int) : DatabaseCircuitBreaker → Prop where
  | init : BreakerReachable t T (mkBreaker t T)
  | step (cb : DatabaseCircuitBreaker) (now : Int) (opSucceeds : Bool) :
      BreakerReachable t T cb → BreakerReachable t T (execute cb now opSucceeds).1

/-- Invariant maintained by execute: the configuration fields never change,
the state HALF_OPEN is never left behind by a completed call, and an OPEN
breaker has failure_count at the threshold and a recorded failure time. -/
def BreakerInv (t : Nat) (T : Int) (cb : DatabaseCircuitBreaker) : Prop :=
  cb.threshold = t ∧ cb.timeout = T ∧ cb.state ≠ .HALF_OPEN ∧
    (cb.state = .OPEN → cb.threshold ≤ cb.failure_count ∧ cb.last_failure_time ≠ none)

theorem breakerInv_mk (t : Nat) (T : Int) : BreakerInv t T (mkBreaker t T) := by
  refine ⟨rfl, rfl, ?_, ?_⟩ <;> simp [mkBreaker]

theorem runOperation_true (cb : DatabaseCircuitBreaker) (now : Int) :
    runOperation cb now true = (breakerReset cb, .ok, true) := rfl

theorem runOperation_false (cb : DatabaseCircuitBreaker) (now : Int) :
    runOperation cb now false = (record_failure cb now, .opError, true) := rfl

theorem execute_closed (cb : DatabaseCircuitBreaker) (now : Int) (opSucceeds : Bool)
    (hst : cb.state = .CLOSED) :
    execute cb now opSucceeds = runOperation cb now opSucceeds := by
  unfold execute
  rw [hst]

theorem execute_half_open (cb : DatabaseCircuitBreaker) (now : Int) (opSucceeds : Bool)
    (hst : cb.state = .HALF_OPEN) :
    execute cb now opSucceeds = runOperation cb now opSucceeds := by
  unfold execute
  rw [hst]

theorem execute_open_elapsed (cb : DatabaseCircuitBreaker) (tf now : Int) (opSucceeds : Bool)
    (hst : cb.state = .OPEN) (hl : cb.last_failure_time = some tf)
    (hT : cb.timeout < now - tf) :
    execute cb now opSucceeds =
      runOperation { cb with last_failure_time := some tf, state := .HALF_OPEN }
        now opSucceeds := by
  unfold execute
  rw [hst, hl]
  simp [hT]

theorem execute_open_rejected (cb : DatabaseCircuitBreaker) (tf now : Int) (opSucceeds : Bool)
    (hst : cb.state = .OPEN) (hl : cb.last_failure_time = some tf)
    (hT : ¬ cb.timeout < now - tf) :
    execute cb now opSucceeds = (cb, .circuitOpen, false) := by
  unfold execute
  rw [hst, hl]
  simp [hT]

theorem inv_runOperation (t : Nat) (T : Int) (cb : DatabaseCircuitBreaker)
    (hth : cb.threshold = t) (hto : cb.timeout = T) (now : Int) (opSucceeds : Bool)
    (hOK : cb.state = .OPEN ∨ cb.state = .HALF_OPEN → cb.threshold ≤ cb.failure_count) :
    BreakerInv t T (runOperation cb now opSucceeds).1 := by
  cases opSucceeds with
  | true =>
    rw [runOperation_true]
    exact ⟨hth, hto, by simp [breakerReset], by simp [breakerReset]⟩
  | false =>
    rw [runOperation_false]
    by_cases hc : cb.threshold ≤ cb.failure_count + 1
    · refine ⟨hth, hto, ?_, ?_⟩
      · simp [record_failure, hc]
      · intro _
        exact ⟨hc, by simp [record_failure]⟩
    · have hstate : (record_failure cb now).state = cb.state := by
        simp [record_failure, hc]
      refine ⟨hth, hto, ?_, ?_⟩
      · rw [hstate]
        intro hH
        exact hc (Nat.le_succ_of_le (hOK (Or.inr hH)))
      · rw [hstate]
        intro hO
        exact ⟨Nat.le_succ_of_le (hOK (Or.inl hO)), by simp [record_failure]⟩

theorem breakerInv_execute (t : Nat) (T : Int) (cb : DatabaseCircuitBreaker)
    (h : BreakerInv t T cb) (now : Int) (opSucceeds : Bool) :
    BreakerInv t T (execute cb now opSucceeds).1 := by
  obtain ⟨hth, hto, hhalf, hopen⟩ := h
  match hst : cb.state with
  | .CLOSED =>
    rw [execute_closed cb now opSucceeds hst]
    refine inv_runOperation t T cb hth hto now opSucceeds ?_
    intro hx
    rcases hx with hx | hx <;> rw [hst] at hx <;> cases hx
  | .OPEN =>
    obtain ⟨hfc, hlft⟩ := hopen hst
    match hl : cb.last_failure_time with
    | none => exact absurd hl hlft
    | some tf =>
      by_cases hT : cb.timeout < now - tf
      · rw [execute_open_elapsed cb tf now opSucceeds hst hl hT]
        exact inv_runOperation t T
          { cb with last_failure_time := some tf, state := .HALF_OPEN }
          hth hto now opSucceeds (fun _ => hfc)
      · rw [execute_open_rejected cb tf now opSucceeds hst hl hT]
        exact ⟨hth, hto, by simp [hst], fun _ => ⟨hfc, hlft⟩⟩
  | .HALF_OPEN => exact absurd hst hhalf

theorem breakerInv_reachable (t : Nat) (T : Int) (cb : DatabaseCircuitBreaker)
    (h : BreakerReachable t T cb) : BreakerInv t T cb := by
  induction h with
  | init => exact breakerInv_mk t T
  | step cb now opSucceeds _ ih => exact breakerInv_execute t T cb ih now opSucceeds

/-- Folding a list of failure times through execute with a failing
operation: the consecutive-failure scenario. -/
def failSeq (cb : DatabaseCircuitBreaker) (ts : List Int) : DatabaseCircuitBreaker :=
  ts.foldl (fun c τ => (execute c τ false).1) cb

theorem failSeq_closed (ts : List Int) (cb : DatabaseCircuitBreaker)
    (hst : cb.state = .CLOSED)
    (hcnt : cb.failure_count + ts.length = cb.threshold)
    (hne : ts ≠ []) :
    (failSeq cb ts).state = .OPEN ∧
      (failSeq cb ts).last_failure_time = ts.getLast? ∧
      (failSeq cb ts).threshold = cb.threshold ∧
      (failSeq cb ts).timeout = cb.timeout := by
  induction ts generalizing cb with
  | nil => exact absurd rfl hne
  | cons τ rest ih =>
    have hstep : (execute cb τ false).1 = record_failure cb τ := by
      unfold execute
      rw [hst]
      rfl
    cases rest with
    | nil =>
      have hth : cb.threshold ≤ cb.failure_count + 1 := by
        simp at hcnt
        omega
      simp only [failSeq, List.foldl_cons, List.foldl_nil, hstep]
      refine ⟨?_, ?_, rfl, rfl⟩
      · simp [record_failure, hth]
      · simp [record_failure]
    | cons τ2 rest2 =>
      have hlt : ¬ cb.threshold ≤ cb.failure_count + 1 := by
        simp at hcnt
        omega
      have hrec : (record_failure cb τ).state = .CLOSED := by
        simp [record_failure, hlt, hst]
      have hcnt2 : (record_failure cb τ).failure_count + (τ2 :: rest2).length
          = (record_failure cb τ).threshold := by
        simp only [record_failure]
        simp at hcnt ⊢
        omega
      have hne2 : (τ2 :: rest2) ≠ ([] : List Int) := by simp
      have := ih (record_failure cb τ) hrec hcnt2 hne2
      have hfold : failSeq cb (τ :: τ2 :: rest2) = failSeq (record_failure cb τ) (τ2 :: rest2) := by
        simp [failSeq, hstep]
      rw [hfold]
      refine ⟨this.1, ?_, ?_, ?_⟩
      · rw [this.2.1, List.getLast?_cons_cons]
      · rw [this.2.2.1]
        simp [record_failure]
      · rw [this.2.2.2]
        simp [record_failure]

/-- C1: for every circuit breaker with failure threshold t, after any sequence
of t consecutive failed operations (with no intervening success) the breaker
state is OPEN, and every subsequent call to execute made before the open
timeout has elapsed since the last failure fails with the circuit-open error
and does not invoke the supplied operation (the Bool component false records
that the operation was not invoked, and the state is returned unchanged). -/
theorem c1_consecutive_failures_open_breaker (t : Nat) (T : Int) (ts : List Int)
    (hlen : ts.length = t) (hne : ts ≠ []) :
    (failSeq (mkBreaker t T) ts).state = .OPEN ∧
      (failSeq (mkBreaker t T) ts).last_failure_time = ts.getLast? ∧
      ∀ (now : Int) (opSucceeds : Bool) (tf : Int), ts.getLast? = some tf →
        now - tf < T →
        execute (failSeq (mkBreaker t T) ts) now opSucceeds
          = (failSeq (mkBreaker t T) ts, .circuitOpen, false) := by
  have h := failSeq_closed ts (mkBreaker t T) rfl (by simp [mkBreaker, hlen]) hne
  refine ⟨h.1, h.2.1, ?_⟩
  intro now opSucceeds tf htf hlt
  apply execute_open_rejected _ _ _ _ h.1 (h.2.1.trans htf)
  rw [h.2.2.2]
  simp only [mkBreaker]
  omega

/-- Witness for C1 at threshold 2, timeout 10, failures at times 0 and 1, and
a rejected call at time 5. -/
theorem c1_consecutive_failures_open_breaker_witness :
    (([0, 1] : List Int).length = 2 ∧ ([0, 1] : List Int) ≠ [] ∧
      ([0, 1] : List Int).getLast? = some 1 ∧ ((5 : Int) - 1 < 10)) ∧
    (failSeq (mkBreaker 2 10) [0, 1]).state = .OPEN ∧
      execute (failSeq (mkBreaker 2 10) [0, 1]) 5 true
        = (failSeq (mkBreaker 2 10) [0, 1], .circuitOpen, false) := by
  have h := c1_consecutive_failures_open_breaker 2 10 [0, 1] (by decide) (by decide)
  exact ⟨⟨by decide, by decide, by decide, by decide⟩, h.1,
    h.2.2 5 true 1 (by decide) (by decide)⟩

/-- C3: for every reachable circuit breaker in state OPEN, the first execute
call after the timeout has elapsed since the last recorded failure invokes the
operation (through the intermediate HALF_OPEN state) exactly once as a trial;
a successful trial resets failure_count to 0 and closes the breaker, and a
failed trial re-opens the breaker with the last-failure timestamp moved to the
current time, restarting the timeout. -/
theorem c3_half_open_trial (t : Nat) (T : Int) (cb : DatabaseCircuitBreaker)
    (h : BreakerReachable t T cb) (hst : cb.state = .OPEN)
    (tf : Int) (hl : cb.last_failure_time = some tf)
    (now : Int) (hT : cb.timeout < now - tf) :
    execute cb now true
        = ({ cb with failure_count := 0, state := .CLOSED }, .ok, true) ∧
      execute cb now false
        = ({ cb with
             failure_count := cb.failure_count + 1,
             last_failure_time := some now,
             state := .OPEN }, .opError, true) := by
  obtain ⟨hth, hto, hhalf, hopen⟩ := breakerInv_reachable t T cb h
  obtain ⟨hfc, _⟩ := hopen hst
  constructor
  · rw [execute_open_elapsed cb tf now true hst hl hT, runOperation_true]
    rw [← hl]
    rfl
  · rw [execute_open_elapsed cb tf now false hst hl hT, runOperation_false]
    have hc : cb.threshold ≤ cb.failure_count + 1 := Nat.le_succ_of_le hfc
    simp [record_failure, hc]

/-- Witness for C3: a breaker with threshold 1 and timeout 10 that failed at
time 0 is OPEN; a successful trial at time 20 closes it with a zeroed count. -/
theorem c3_half_open_trial_witness :
    ((execute (mkBreaker 1 10) 0 false).1.state = .OPEN ∧
      (execute (mkBreaker 1 10) 0 false).1.last_failure_time = some 0 ∧
      (execute (mkBreaker 1 10) 0 false).1.timeout < 20 - 0) ∧
    execute (execute (mkBreaker 1 10) 0 false).1 20 true
      = (⟨1, 10, 0, some 0, .CLOSED⟩, .ok, true) := by
  refine ⟨⟨by decide, by decide, by decide⟩, ?_⟩
  have h := (c3_half_open_trial 1 10 (execute (mkBreaker 1 10) 0 false).1
    (BreakerReachable.step (mkBreaker 1 10) 0 false BreakerReachable.init)
    (by decide) 0 (by decide) 20 (by decide)).1
  rw [h]
  decide

/-- C10: in every breaker state reachable from the initial state by any
sequence of execute calls, an OPEN state has a recorded last-failure
timestamp (not the initial None), so the elapsed-time subtraction performed
by execute in the OPEN branch never hits the None operand: no execute call
from a reachable state produces the TypeError outcome. -/
theorem c10_open_state_has_timestamp (t : Nat) (T : Int) (cb : DatabaseCircuitBreaker)
    (h : BreakerReachable t T cb) :
    (cb.state = .OPEN → cb.last_failure_time ≠ none) ∧
      ∀ (now : Int) (opSucceeds : Bool), (execute cb now opSucceeds).2.1 ≠ .typeError := by
  obtain ⟨_, _, hhalf, hopen⟩ := breakerInv_reachable t T cb h
  refine ⟨fun hO => (hopen hO).2, ?_⟩
  intro now opSucceeds
  match hst : cb.state with
  | .CLOSED =>
    rw [execute_closed cb now opSucceeds hst]
    cases opSucceeds with
    | true => rw [runOperation_true]; simp
    | false => rw [runOperation_false]; simp
  | .OPEN =>
    obtain ⟨_, hlft⟩ := hopen hst
    match hl : cb.last_failure_time with
    | none => exact absurd hl hlft
    | some tf =>
      by_cases hT : cb.timeout < now - tf
      · rw [execute_open_elapsed cb tf now opSucceeds hst hl hT]
        cases opSucceeds with
        | true => rw [runOperation_true]; simp
        | false => rw [runOperation_false]; simp
      · rw [execute_open_rejected cb tf now opSucceeds hst hl hT]
        simp
  | .HALF_OPEN => exact absurd hst hhalf

/-- Witness for C10 at the initial breaker and after one failed call. -/
theorem c10_open_state_has_timestamp_witness :
    (execute (mkBreaker 5 60000) 1000 false).2.1 ≠ .typeError ∧
      (execute (execute (mkBreaker 5 60000) 1000 false).1 2000 false).2.1 ≠ .typeError := by
  refine ⟨?_, ?_⟩
  · exact (c10_open_state_has_timestamp 5 60000 (mkBreaker 5 60000)
      BreakerReachable.init).2 1000 false
  · exact (c10_open_state_has_timestamp 5 60000 (execute (mkBreaker 5 60000) 1000 false).1
      (BreakerReachable.step (mkBreaker 5 60000) 1000 false BreakerReachable.init)).2 2000 false

/-! ## Python dict and sorted, as used by the caches in simple_rag_v2.py

A Python dict is embedded as an insertion-ordered association list:
assignment to an existing key updates the value in place, assignment to a new
key appends at the end, and list(d.items()) is the list itself. -/

/-- Lookup d[k] (None when absent). -/
def dictGet {K V : Type} [DecidableEq K] : List (K × V) → K → Option V
  | [], _ => none
  | (k2, v) :: rest, k => if k2 = k then some v else dictGet rest k

/-- Assignment d[k] = v: update in place when the key is present, append
otherwise. -/
def dictInsert {K V : Type} [DecidableEq K] : List (K × V) → K → V → List (K × V)
  | [], k, v => [(k, v)]
  | (k2, v2) :: rest, k, v =>
    if k2 = k then (k, v) :: rest else (k2, v2) :: dictInsert rest k v

/-- One step of a stable insertion sort: x is placed before the first element
not strictly below it, so elements with equal keys keep their original
order, exactly as Python sorted does. -/
def insertStable {α : Type} (lt : α → α → Bool) (x : α) : List α → List α
  | [] => [x]
  | y :: ys => if lt y x then y :: insertStable lt x ys else x :: y :: ys

/-- Stable ascending sort, the behaviour of Python sorted with a key
function (lt compares the keys strictly). -/
def sortStable {α : Type} (lt : α → α → Bool) : List α → List α
  | [] => []
  | x :: xs => insertStable lt x (sortStable lt xs)

theorem length_insertStable {α : Type} (lt : α → α → Bool) (x : α) (l : List α) :
    (insertStable lt x l).length = l.length + 1 := by
  induction l with
  | nil => rfl
  | cons y ys ih =>
    simp only [insertStable]
    split <;> simp [ih]

theorem length_sortStable {α : Type} (lt : α → α → Bool) (l : List α) :
    (sortStable lt l).length = l.length := by
  induction l with
  | nil => rfl
  | cons x xs ih => simp [sortStable, length_insertStable, ih]

theorem length_dictInsert_le {K V : Type} [DecidableEq K]
    (d : List (K × V)) (k : K) (v : V) :
    (dictInsert d k v).length ≤ d.length + 1 := by
  induction d with
  | nil => simp [dictInsert]
  | cons p rest ih =>
    simp only [dictInsert]
    split <;> simp_all

theorem dictGet_dictInsert_self {K V : Type} [DecidableEq K]
    (d : List (K × V)) (k : K) (v : V) :
    dictGet (dictInsert d k v) k = some v := by
  induction d with
  | nil => simp [dictInsert, dictGet]
  | cons p rest ih =>
    simp only [dictInsert]
    split
    · simp [dictGet]
    · simp only [dictGet]
      split <;> simp_all

theorem dictInsert_of_get_none {K V : Type} [DecidableEq K]
    (d : List (K × V)) (k : K) (v : V) (h : dictGet d k = none) :
    dictInsert d k v = d ++ [(k, v)] := by
  induction d with
  | nil => rfl
  | cons p rest ih =>
    simp only [dictGet] at h
    simp only [dictInsert]
    split
    · simp_all
    · simp only [List.cons_append, List.cons.injEq, true_and]
      exact ih (by split at h <;> simp_all)

theorem dictGet_append_of_none {K V : Type} [DecidableEq K]
    (d d2 : List (K × V)) (k : K) (h : dictGet d k = none) :
    dictGet (d ++ d2) k = dictGet d2 k := by
  induction d with
  | nil => rfl
  | cons p rest ih =>
    simp only [dictGet] at h
    simp only [List.cons_append, dictGet]
    split at h
    · exact absurd h (by simp)
    · simp_all

theorem dictGet_drop_of_none {K V : Type} [DecidableEq K]
    (d : List (K × V)) (k : K) (n : Nat) (h : dictGet d k = none) :
    dictGet (d.drop n) k = none := by
  induction d generalizing n with
  | nil => simp [dictGet]
  | cons p rest ih =>
    cases n with
    | zero => exact h
    | succ m =>
      simp only [dictGet] at h
      split at h
      · exact absurd h (by simp)
      · exact ih m h

/-! ## Two-tier result cache (simple_rag_v2.py, UltraFastRAGSystem)

The cache state of UltraFastRAGSystem: the hot dict l1_cache, the warm dict
l2_cache, the frequency dict query_frequency, and the hit and miss counters.
Keys and values are type parameters (the source stores strings for the
retrieve path and result lists for the search path in the same dicts). -/

structure RagCacheState (K V : Type) where
  l1_cache : List (K × V)
  l2_cache : List (K × V)
  query_frequency : List (K × Nat)
  cache_hits : Nat
  cache_misses : Nat

/-- Field max_l1_cache of UltraFastRAGSystem. -/
def max_l1_cache : Nat := 50

/-- Field max_l2_cache of UltraFastRAGSystem. -/
def max_l2_cache : Nat := 200

/-- The empty caches set up in UltraFastRAGSystem.__init__. -/
def emptyRagCache (K V : Type) : RagCacheState K V :=
  { l1_cache := [], l2_cache := [], query_frequency := [], cache_hits := 0, cache_misses := 0 }

/-- Lookup query_frequency.get(k, 0). -/
def freqGet {K V : Type} [DecidableEq K] (st : RagCacheState K V) (k : K) : Nat :=
  (dictGet st.query_frequency k).getD 0

/-- UltraFastRAGSystem._update_query_frequency. -/
def update_query_frequency {K V : Type} [DecidableEq K]
    (st : RagCacheState K V) (k : K) : RagCacheState K V :=
  { st with query_frequency := dictInsert st.query_frequency k (freqGet st k + 1) }

/-- UltraFastRAGSystem._promote_to_l1_cache: insert into the hot dict, then
when its size exceeds max_l1_cache keep only the last max_l1_cache // 2
entries (list(items)[-25:]). -/
def promote_to_l1_cache {K V : Type} [DecidableEq K]
    (st : RagCacheState K V) (k : K) (v : V) : RagCacheState K V :=
  let l1 := dictInsert st.l1_cache k v
  let l1 := if max_l1_cache < l1.length then l1.drop (l1.length - max_l1_cache / 2) else l1
  { st with l1_cache := l1 }

/-- UltraFastRAGSystem._cache_result: insert into the warm dict and bump the
frequency; when the warm dict exceeds max_l2_cache, keep the
max_l2_cache // 2 entries of highest frequency (the tail of a stable
ascending sort by frequency); finally promote to the hot dict when the
bumped frequency has reached 3. -/
def cache_result {K V : Type} [DecidableEq K]
    (st : RagCacheState K V) (k : K) (v : V) : RagCacheState K V :=
  let st := { st with l2_cache := dictInsert st.l2_cache k v }
  let st := update_query_frequency st k
  let st :=
    if max_l2_cache < st.l2_cache.length then
      let items_by_freq :=
        sortStable (fun a b => freqGet st a.1 < freqGet st b.1) st.l2_cache
      { st with l2_cache := items_by_freq.drop (items_by_freq.length - max_l2_cache / 2) }
    else st
  if 3 ≤ freqGet st k then promote_to_l1_cache st k v else st

/-- The cache-consult portion of UltraFastRAGSystem.retrieve_context: a hot
hit bumps the frequency and returns; a warm hit promotes to the hot dict
(without bumping the frequency) and returns; otherwise the miss counter is
bumped and nothing is returned. -/
def retrieve_context_cached {K V : Type} [DecidableEq K]
    (st : RagCacheState K V) (k : K) : Option V × RagCacheState K V :=
  match dictGet st.l1_cache k with
  | some result =>
    (some result, update_query_frequency { st with cache_hits := st.cache_hits + 1 } k)
  | none =>
    match dictGet st.l2_cache k with
    | some result =>
      (some result, promote_to_l1_cache { st with cache_hits := st.cache_hits + 1 } k result)
    | none => (none, { st with cache_misses := st.cache_misses + 1 })

/-- The result-caching line of UltraFastRAGSystem.search for a non-empty
result list: a bare dict assignment into the warm cache under the
search-prefixed key, with no size management, plus the miss-counter bump. -/
def search_cache_write {K V : Type} [DecidableEq K]
    (st : RagCacheState K V) (search_key : K) (results : V) : RagCacheState K V :=
  { st with
    l2_cache := dictInsert st.l2_cache search_key results,
    cache_misses := st.cache_misses + 1 }

/-- One public cache-mutating operation of UltraFastRAGSystem. -/
inductive CacheOp (K V : Type) where
  | get (k : K)
  | put (k : K) (v : V)
  | searchWrite (k : K) (v : V)

/-- Apply one operation to the cache state. -/
def applyCacheOp {K V : Type} [DecidableEq K]
    (st : RagCacheState K V) : CacheOp K V → RagCacheState K V
  | .get k => (retrieve_context_cached st k).2
  | .put k v => cache_result st k v
  | .searchWrite k v => search_cache_write st k v

/-- Apply a sequence of operations from left to right. -/
def runCacheOps {K V : Type} [DecidableEq K]
    (st : RagCacheState K V) (ops : List (CacheOp K V)) : RagCacheState K V :=
  ops.foldl applyCacheOp st

theorem length_dictInsert_of_get_some {K V : Type} [DecidableEq K]
    (d : List (K × V)) (k : K) (v w : V) (h : dictGet d k = some w) :
    (dictInsert d k v).length = d.length := by
  induction d with
  | nil => simp [dictGet] at h
  | cons p rest ih =>
    simp only [dictGet] at h
    simp only [dictInsert]
    split
    · simp
    · simp only [List.length_cons]
      split at h
      · simp_all
      · rw [ih h]

theorem freqGet_update_self {K V : Type} [DecidableEq K]
    (st : RagCacheState K V) (k : K) :
    freqGet (update_query_frequency st k) k = freqGet st k + 1 := by
  simp [update_query_frequency, freqGet, dictGet_dictInsert_self]

theorem dictGet_promote_self_of_none {K V : Type} [DecidableEq K]
    (st : RagCacheState K V) (k : K) (v : V) (h : dictGet st.l1_cache k = none) :
    dictGet (promote_to_l1_cache st k v).l1_cache k = some v := by
  unfold promote_to_l1_cache
  simp only
  rw [dictInsert_of_get_none st.l1_cache k v h]
  by_cases hc : max_l1_cache < (st.l1_cache ++ [(k, v)]).length
  · simp only [hc, if_true]
    have hlen : (st.l1_cache ++ [(k, v)]).length = st.l1_cache.length + 1 := by simp
    have hm : (st.l1_cache ++ [(k, v)]).length - max_l1_cache / 2 ≤ st.l1_cache.length := by
      have : (1 : Nat) ≤ max_l1_cache / 2 := by decide
      omega
    rw [List.drop_append_eq_append_drop]
    have hz : (st.l1_cache ++ [(k, v)]).length - max_l1_cache / 2 - st.l1_cache.length = 0 := by
      omega
    rw [hz, List.drop_zero]
    rw [dictGet_append_of_none _ _ _ (dictGet_drop_of_none _ _ _ h)]
    simp [dictGet]
  · simp only [hc, if_false]
    rw [dictGet_append_of_none _ _ _ h]
    simp [dictGet]

theorem dictGet_promote_self {K V : Type} [DecidableEq K]
    (st : RagCacheState K V) (k : K) (v : V)
    (hlen : st.l1_cache.length ≤ max_l1_cache) :
    dictGet (promote_to_l1_cache st k v).l1_cache k = some v := by
  match hget : dictGet st.l1_cache k with
  | none => exact dictGet_promote_self_of_none st k v hget
  | some w =>
    unfold promote_to_l1_cache
    simp only
    have hsame : (dictInsert st.l1_cache k v).length = st.l1_cache.length :=
      length_dictInsert_of_get_some st.l1_cache k v w hget
    have hc : ¬ max_l1_cache < (dictInsert st.l1_cache k v).length := by omega
    simp only [hc, if_false]
    exact dictGet_dictInsert_self st.l1_cache k v

theorem promote_l1_length_le {K V : Type} [DecidableEq K]
    (st : RagCacheState K V) (k : K) (v : V)
    (h : st.l1_cache.length ≤ max_l1_cache) :
    (promote_to_l1_cache st k v).l1_cache.length ≤ max_l1_cache := by
  unfold promote_to_l1_cache
  simp only
  have hins := length_dictInsert_le st.l1_cache k v
  by_cases hc : max_l1_cache < (dictInsert st.l1_cache k v).length
  · simp only [hc, if_true, List.length_drop]
    have : max_l1_cache / 2 ≤ max_l1_cache := by decide
    omega
  · simp only [hc, if_false]
    omega

theorem promote_l1_l2_eq {K V : Type} [DecidableEq K]
    (st : RagCacheState K V) (k : K) (v : V) :
    (promote_to_l1_cache st k v).l2_cache = st.l2_cache := rfl

theorem promote_l1_freq_eq {K V : Type} [DecidableEq K]
    (st : RagCacheState K V) (k : K) (v : V) :
    (promote_to_l1_cache st k v).query_frequency = st.query_frequency := rfl

/-- Both tiers respect their configured capacities. -/
def CacheBounds {K V : Type} (st : RagCacheState K V) : Prop :=
  st.l1_cache.length ≤ max_l1_cache ∧ st.l2_cache.length ≤ max_l2_cache

theorem cache_result_bounds {K V : Type} [DecidableEq K]
    (st : RagCacheState K V) (k : K) (v : V) (h : CacheBounds st) :
    CacheBounds (cache_result st k v) := by
  obtain ⟨h1, h2⟩ := h
  unfold cache_result
  simp only
  set st1 := update_query_frequency { st with l2_cache := dictInsert st.l2_cache k v } k
    with hst1
  have hl1 : st1.l1_cache = st.l1_cache := rfl
  have hl2 : st1.l2_cache = dictInsert st.l2_cache k v := rfl
  have hinsle := length_dictInsert_le st.l2_cache k v
  by_cases hc : max_l2_cache < st1.l2_cache.length
  · simp only [hc, if_true]
    set st2 : RagCacheState K V :=
      { st1 with
        l2_cache :=
          (sortStable (fun a b => freqGet st1 a.1 < freqGet st1 b.1) st1.l2_cache).drop
            ((sortStable (fun a b => freqGet st1 a.1 < freqGet st1 b.1) st1.l2_cache).length -
              max_l2_cache / 2) } with hst2
    have h2l1 : st2.l1_cache = st.l1_cache := rfl
    have h2len : st2.l2_cache.length ≤ max_l2_cache := by
      simp only [hst2, List.length_drop, length_sortStable]
      have : max_l2_cache / 2 ≤ max_l2_cache := by decide
      omega
    split
    · constructor
      · rw [show (promote_to_l1_cache st2 k v).l1_cache.length ≤ max_l1_cache ↔ True from
          iff_true_intro (promote_l1_length_le st2 k v (h2l1 ▸ h1))]
        trivial
      · rw [promote_l1_l2_eq]
        exact h2len
    · exact ⟨h2l1 ▸ h1, h2len⟩
  · simp only [hc, if_false]
    split
    · constructor
      · exact promote_l1_length_le st1 k v (hl1 ▸ h1)
      · rw [promote_l1_l2_eq]
        omega
    · exact ⟨hl1 ▸ h1, by omega⟩

theorem retrieve_context_cached_bounds {K V : Type} [DecidableEq K]
    (st : RagCacheState K V) (k : K) (h : CacheBounds st) :
    CacheBounds (retrieve_context_cached st k).2 := by
  obtain ⟨h1, h2⟩ := h
  unfold retrieve_context_cached
  match dictGet st.l1_cache k with
  | some result => exact ⟨h1, h2⟩
  | none =>
    match dictGet st.l2_cache k with
    | some result =>
      refine ⟨promote_l1_length_le _ k result h1, ?_⟩
      rw [promote_l1_l2_eq]
      exact h2
    | none => exact ⟨h1, h2⟩

theorem runCacheOps_bounds {K V : Type} [DecidableEq K]
    (ops : List (CacheOp K V)) (st : RagCacheState K V) (h : CacheBounds st)
    (hops : ∀ op ∈ ops, ∀ (k : K) (v : V), op ≠ CacheOp.searchWrite k v) :
    CacheBounds (runCacheOps st ops) := by
  induction ops generalizing st with
  | nil => exact h
  | cons op rest ih =>
    have hstep : CacheBounds (applyCacheOp st op) := by
      match op with
      | .get k => exact retrieve_context_cached_bounds st k h
      | .put k v => exact cache_result_bounds st k v h
      | .searchWrite k v => exact absurd rfl (hops _ (by simp) k v)
    exact ih (applyCacheOp st op) hstep (fun op2 hm k v => hops op2 (by simp [hm]) k v)

/-- C5 (amended): starting from the empty cache, after each get
(retrieve_context) or put (result-caching) operation of any finite sequence,
the hot tier holds at most max_l1_cache (50) entries and the warm tier at
most max_l2_cache (200) entries; the claim fails for the remaining public
cache-mutating operation, the search result-caching write, which inserts
into the warm tier without any size management (see the counterexample). -/
theorem c5_tier_bounds_get_put {K V : Type} [DecidableEq K]
    (ops : List (CacheOp K V)) (n : Nat)
    (hops : ∀ op ∈ ops, ∀ (k : K) (v : V), op ≠ CacheOp.searchWrite k v) :
    (runCacheOps (emptyRagCache K V) (ops.take n)).l1_cache.length ≤ max_l1_cache ∧
      (runCacheOps (emptyRagCache K V) (ops.take n)).l2_cache.length ≤ max_l2_cache := by
  refine runCacheOps_bounds (ops.take n) (emptyRagCache K V) ⟨?_, ?_⟩ ?_
  · simp [emptyRagCache, max_l1_cache]
  · simp [emptyRagCache, max_l2_cache]
  · intro op hm k v
    exact hops op (List.take_subset n ops hm) k v

/-- Witness for C5 (amended) on a small get and put sequence. -/
theorem c5_tier_bounds_get_put_witness :
    (∀ op ∈ [CacheOp.put 1 10, CacheOp.get 1, CacheOp.get 2],
        ∀ (k v : Nat), op ≠ CacheOp.searchWrite k v) ∧
    (runCacheOps (emptyRagCache Nat Nat)
        ([CacheOp.put 1 10, CacheOp.get 1, CacheOp.get 2].take 3)).l1_cache.length
      ≤ max_l1_cache := by
  have hops : ∀ op ∈ [CacheOp.put 1 10, CacheOp.get 1, CacheOp.get 2],
      ∀ (k v : Nat), op ≠ CacheOp.searchWrite k v := by
    intro op hm k v
    simp only [List.mem_cons, List.not_mem_nil, or_false] at hm
    rcases hm with rfl | rfl | rfl <;> simp
  exact ⟨hops, (c5_tier_bounds_get_put [CacheOp.put 1 10, CacheOp.get 1, CacheOp.get 2]
    3 hops).1⟩

/-- The 201 distinct search result-caching writes used against C5. -/
def c5_search_ops : List (CacheOp Nat Nat) :=
  (List.range 201).map (fun i => CacheOp.searchWrite i 0)

set_option maxRecDepth 4000 in
/-- Counterexample to C5 as stated: a sequence of 201 public cache-mutating
operations (the search result-caching path with 201 distinct derived keys)
starting from the empty cache leaves the warm tier with 201 entries,
exceeding max_l2_cache = 200. -/
theorem c5_counterexample_search_overflows_warm_tier :
    ¬ (runCacheOps (emptyRagCache Nat Nat) c5_search_ops).l2_cache.length
        ≤ max_l2_cache := by
  decide

theorem cache_result_promotes_at_threshold {K V : Type} [DecidableEq K]
    (st : RagCacheState K V) (k : K) (v : V)
    (hl1 : st.l1_cache.length ≤ max_l1_cache)
    (hf : 2 ≤ freqGet st k) :
    dictGet (cache_result st k v).l1_cache k = some v := by
  unfold cache_result
  simp only
  set st1 := update_query_frequency { st with l2_cache := dictInsert st.l2_cache k v } k
    with hst1
  have hfreq1 : freqGet st1 k = freqGet st k + 1 := by
    rw [hst1]
    rw [freqGet_update_self { st with l2_cache := dictInsert st.l2_cache k v } k]
    rfl
  by_cases hc : max_l2_cache < st1.l2_cache.length
  · simp only [hc, if_true]
    set st2 : RagCacheState K V :=
      { st1 with
        l2_cache :=
          (sortStable (fun a b => freqGet st1 a.1 < freqGet st1 b.1) st1.l2_cache).drop
            ((sortStable (fun a b => freqGet st1 a.1 < freqGet st1 b.1) st1.l2_cache).length -
              max_l2_cache / 2) } with hst2
    have hfreq2 : freqGet st2 k = freqGet st k + 1 := hfreq1
    have hcond : 3 ≤ freqGet st2 k := by omega
    simp only [hcond, if_true]
    exact dictGet_promote_self st2 k v hl1
  · simp only [hc, if_false]
    have hcond : 3 ≤ freqGet st1 k := by omega
    simp only [hcond, if_true]
    exact dictGet_promote_self st1 k v hl1

/-- C6 (amended): a key whose recorded access count reaches the promotion
threshold 3 on an operation is present in the hot tier right after that
operation: a put whose frequency bump reaches 3 promotes the key into the
hot tier, and a hot-tier hit (the only get that bumps the count) leaves the
key in the hot tier. The key need not remain present after subsequent
operations: later promotions can evict it (see the counterexample). -/
theorem c6_threshold_key_in_hot_tier {K V : Type} [DecidableEq K]
    (st : RagCacheState K V) (k : K) (v : V)
    (hl1 : st.l1_cache.length ≤ max_l1_cache)
    (hf : 2 ≤ freqGet st k) :
    dictGet (cache_result st k v).l1_cache k = some v ∧
      (∀ w, dictGet st.l1_cache k = some w →
        dictGet (retrieve_context_cached st k).2.l1_cache k = some w) := by
  refine ⟨cache_result_promotes_at_threshold st k v hl1 hf, ?_⟩
  intro w hw
  unfold retrieve_context_cached
  rw [hw]
  exact hw

/-- Witness for C6 (amended): key 0 with prior count 2 is promoted by the
put that takes its count to 3. -/
theorem c6_threshold_key_in_hot_tier_witness :
    (((⟨[], [], [(0, 2)], 0, 0⟩ : RagCacheState Nat Nat).l1_cache.length ≤ max_l1_cache) ∧
      2 ≤ freqGet (⟨[], [], [(0, 2)], 0, 0⟩ : RagCacheState Nat Nat) 0) ∧
    dictGet (cache_result (⟨[], [], [(0, 2)], 0, 0⟩ : RagCacheState Nat Nat) 0 7).l1_cache 0
      = some 7 := by
  refine ⟨⟨by decide, by decide⟩, ?_⟩
  exact (c6_threshold_key_in_hot_tier (⟨[], [], [(0, 2)], 0, 0⟩ : RagCacheState Nat Nat)
    0 7 (by decide) (by decide)).1

/-- The operation sequence used against the persistence part of C6: three
puts of key 0 take its count to 3 and promote it into the hot tier, then a
put followed by a get of each of the keys 1..50 promotes fifty further keys
through the warm-hit path, overflowing the hot tier, whose eviction keeps
only the last 25 entries and drops key 0. -/
def c6_ops : List (CacheOp Nat Nat) :=
  [CacheOp.put 0 0, CacheOp.put 0 0, CacheOp.put 0 0] ++
    (((List.range 50).map (fun i => [CacheOp.put (i + 1) 0, CacheOp.get (i + 1)])).flatten)

set_option maxRecDepth 6000 in
/-- Counterexample to C6 as stated: after the sequence c6_ops from the empty
cache, key 0 has reached access count 3 (and was promoted at that moment),
yet it is no longer present in the hot tier at the end of the sequence. -/
theorem c6_counterexample_promoted_key_evicted :
    3 ≤ freqGet (runCacheOps (emptyRagCache Nat Nat) c6_ops) 0 ∧
      dictGet (runCacheOps (emptyRagCache Nat Nat) c6_ops).l1_cache 0 = none := by
  decide

/-- C7 (amended): a get (retrieve_context) whose key misses the hot tier but
hits the warm tier inserts the key with its cached value into the hot tier,
leaves the warm tier and the frequency table unchanged (contrary to the
claim, the frequency counter is not incremented on this path), and returns
the cached value. -/
theorem c7_l2_hit_promotes_without_frequency {K V : Type} [DecidableEq K]
    (st : RagCacheState K V) (k : K) (v : V)
    (h1 : dictGet st.l1_cache k = none) (h2 : dictGet st.l2_cache k = some v) :
    (retrieve_context_cached st k).1 = some v ∧
      dictGet (retrieve_context_cached st k).2.l1_cache k = some v ∧
      (retrieve_context_cached st k).2.query_frequency = st.query_frequency ∧
      (retrieve_context_cached st k).2.l2_cache = st.l2_cache := by
  unfold retrieve_context_cached
  rw [h1, h2]
  refine ⟨rfl, ?_, ?_, ?_⟩
  · exact dictGet_promote_self_of_none
      { st with cache_hits := st.cache_hits + 1 } k v h1
  · rw [promote_l1_freq_eq]
  · rw [promote_l1_l2_eq]

/-- Witness for C7 (amended): a warm-tier hit on key 0. -/
theorem c7_l2_hit_promotes_without_frequency_witness :
    (dictGet (⟨[], [(0, 5)], [], 0, 0⟩ : RagCacheState Nat Nat).l1_cache 0 = none ∧
      dictGet (⟨[], [(0, 5)], [], 0, 0⟩ : RagCacheState Nat Nat).l2_cache 0 = some 5) ∧
    (retrieve_context_cached (⟨[], [(0, 5)], [], 0, 0⟩ : RagCacheState Nat Nat) 0).1
      = some 5 := by
  refine ⟨⟨by decide, by decide⟩, ?_⟩
  exact (c7_l2_hit_promotes_without_frequency
    (⟨[], [(0, 5)], [], 0, 0⟩ : RagCacheState Nat Nat) 0 5 (by decide) (by decide)).1

/-- Counterexample to C7 as stated: on a warm-tier hit for key 0 with an
empty frequency table, the cached value is returned and the key is promoted,
but the access count of the key is not incremented: it stays 0 instead of
becoming 1. -/
theorem c7_counterexample_frequency_not_incremented :
    (retrieve_context_cached (⟨[], [(0, 5)], [], 0, 0⟩ : RagCacheState Nat Nat) 0).1
        = some 5 ∧
      dictGet ((retrieve_context_cached
          (⟨[], [(0, 5)], [], 0, 0⟩ : RagCacheState Nat Nat) 0).2).l1_cache 0 = some 5 ∧
      ¬ freqGet ((retrieve_context_cached
          (⟨[], [(0, 5)], [], 0, 0⟩ : RagCacheState Nat Nat) 0).2) 0
        = freqGet (⟨[], [(0, 5)], [], 0, 0⟩ : RagCacheState Nat Nat) 0 + 1 := by
  decide

/-! ## Cache-key derivation (simple_rag_v2.py, _create_smart_cache_key)

Python string primitives are embedded on the underlying character lists. -/

/-- Python str.lower (the inputs here are ASCII). -/
def pyLower (s : String) : String := String.mk (s.data.map Char.toLower)

/-- Python str.strip: remove leading and trailing whitespace. -/
def pyStrip (s : String) : String :=
  String.mk (((s.data.dropWhile Char.isWhitespace).reverse.dropWhile Char.isWhitespace).reverse)

theorem length_dropWhile_le {α : Type} (p : α → Bool) (l : List α) :
    (l.dropWhile p).length ≤ l.length := by
  induction l with
  | nil => simp [List.dropWhile]
  | cons c cs ih =>
    simp only [List.dropWhile]
    split
    · simp only [List.length_cons]
      omega
    · simp

/-- Python str.split with no separator: the maximal whitespace-free runs. -/
def pyWords : List Char → List String
  | [] => []
  | c :: cs =>
    if c.isWhitespace then pyWords cs
    else
      String.mk (c :: cs.takeWhile (fun d => ¬ d.isWhitespace)) ::
        pyWords (cs.dropWhile (fun d => ¬ d.isWhitespace))
termination_by l => l.length
decreasing_by
  · simp only [List.length_cons]
    omega
  · simp only [List.length_cons]
    have := length_dropWhile_le (fun d => ¬ d.isWhitespace) cs
    omega

/-- Python str.split() on a string. -/
def pySplit (s : String) : List String := pyWords s.data

/-- Python substring test (needle in haystack). -/
def strContains (haystack needle : String) : Bool :=
  (List.range (haystack.data.length + 1)).any
    (fun i => needle.data.isPrefixOf (haystack.data.drop i))

/-- Python string comparison: lexicographic on code points. -/
def charListLt : List Char → List Char → Bool
  | [], [] => false
  | [], _ :: _ => true
  | _ :: _, [] => false
  | a :: as, b :: bs => if a < b then true else if b < a then false else charListLt as bs

/-- Comparison used by sorted on the key-word strings. -/
def pyStrLt (a b : String) : Bool := charListLt a.data b.data

/-- The common_patterns dict of UltraFastRAGSystem.__init__, in insertion
order. -/
def common_patterns : List (String × String) :=
  [("towing_standard", "light duty car towing pricing cost base rate"),
   ("towing_heavy", "heavy duty truck towing pricing cost commercial rate"),
   ("battery_service", "jumpstart battery service cost pricing rate"),
   ("tire_service", "tire change flat tire service cost pricing"),
   ("lockout_service", "lockout car key service cost pricing"),
   ("fuel_delivery", "fuel delivery gas diesel service cost pricing")]

/-- The important_words list of _create_smart_cache_key. -/
def important_words : List String :=
  ["towing", "battery", "tire", "lockout", "fuel", "heavy", "light", "cost", "price", "pricing"]

/-- UltraFastRAGSystem._create_smart_cache_key: lowercase and strip the
query; return the first pattern key whose first three pattern words contain
a substring hit; otherwise join the sorted important words found in the
query with underscores; otherwise fall back to the first 12 hex digits of
the md5 of the normalized query (the md5 primitive of the standard library
is passed in as a function). -/
def create_smart_cache_key (md5hex12 : String → String) (query : String) : String :=
  let query_lower := pyStrip (pyLower query)
  match common_patterns.find?
      (fun p => ((pySplit p.2).take 3).any (fun w => strContains query_lower w)) with
  | some p => p.1
  | none =>
    let key_words := (pySplit query_lower).filter (fun w => important_words.contains w)
    if key_words ≠ [] then
      String.intercalate "_" (sortStable pyStrLt key_words)
    else
      md5hex12 query_lower

/-- UltraFastRAGSystem._get_fallback_response for timeout scenarios. -/
def get_fallback_response (query : String) : String :=
  let query_lower := pyLower query
  if strContains query_lower "towing" then
    "Towing service available. Pricing varies by vehicle type and distance."
  else if strContains query_lower "battery" then
    "Battery jumpstart service available. Standard pricing applies."
  else if strContains query_lower "tire" then
    "Tire service available. Pricing based on service type."
  else if strContains query_lower "lockout" then
    "Lockout service available. Standard rates apply."
  else if strContains query_lower "fuel" then
    "Fuel delivery service available. Distance-based pricing."
  else
    "Service available. Please contact dispatch for pricing."

/-- Outcome of the awaited external retrieval inside retrieve_context: the
cleaned non-empty combined context, no usable nodes, or the asyncio timeout
of the aggressive 3 second bound. -/
inductive RetrievalOutcome where
  | success (context : String)
  | noResults
  | timeout

/-- UltraFastRAGSystem.retrieve_context (the ready path): derive the cache
key, consult the two tiers, and on a miss act on the retrieval outcome: a
successful retrieval is cached via _cache_result and returned; no results
gives the empty string; a timeout consults _get_fallback_response and
returns the fallback when it is non-empty, caching nothing. -/
def retrieve_context (md5hex12 : String → String) (st : RagCacheState String String)
    (query : String) (outcome : RetrievalOutcome) : String × RagCacheState String String :=
  let cache_key := create_smart_cache_key md5hex12 query
  match retrieve_context_cached st cache_key with
  | (some result, st2) => (result, st2)
  | (none, st2) =>
    match outcome with
    | .success context => (context, cache_result st2 cache_key context)
    | .noResults => ("", st2)
    | .timeout =>
      let fallback := get_fallback_response query
      if fallback ≠ "" then (fallback, st2) else ("", st2)

theorem get_fallback_response_ne_empty (query : String) :
    get_fallback_response query ≠ "" := by
  simp only [get_fallback_response]
  split
  · decide
  · split
    · decide
    · split
      · decide
      · split
        · decide
        · split
          · decide
          · decide

/-- C8 (amended): a query whose external retrieval times out is treated as a
cache miss: no entry is inserted into either cache tier for that query (only
the miss counter changes), but the caller receives the non-empty canned
fallback string of _get_fallback_response, not an empty result. -/
theorem c8_timeout_not_cached (md5hex12 : String → String)
    (st : RagCacheState String String) (query : String)
    (h1 : dictGet st.l1_cache (create_smart_cache_key md5hex12 query) = none)
    (h2 : dictGet st.l2_cache (create_smart_cache_key md5hex12 query) = none) :
    retrieve_context md5hex12 st query .timeout
        = (get_fallback_response query,
            { st with cache_misses := st.cache_misses + 1 }) ∧
      get_fallback_response query ≠ "" := by
  refine ⟨?_, get_fallback_response_ne_empty query⟩
  simp only [retrieve_context, retrieve_context_cached, h1, h2]
  rw [if_pos (get_fallback_response_ne_empty query)]

/-- Witness for C8 (amended) on the query hello against the empty cache. -/
theorem c8_timeout_not_cached_witness :
    (dictGet (emptyRagCache String String).l1_cache
        (create_smart_cache_key (fun _ => "x") "hello") = none ∧
      dictGet (emptyRagCache String String).l2_cache
        (create_smart_cache_key (fun _ => "x") "hello") = none) ∧
    retrieve_context (fun _ => "x") (emptyRagCache String String) "hello" .timeout
      = (get_fallback_response "hello",
          { emptyRagCache String String with cache_misses := 1 }) := by
  refine ⟨⟨rfl, rfl⟩, ?_⟩
  exact (c8_timeout_not_cached (fun _ => "x") (emptyRagCache String String) "hello"
    rfl rfl).1

/-- Counterexample to C8 as stated: on a timeout for the query hello against
the empty cache nothing is cached, but the caller receives the generic
non-empty fallback sentence rather than an empty result. -/
theorem c8_counterexample_timeout_returns_fallback :
    (retrieve_context (fun _ => "x") (emptyRagCache String String) "hello" .timeout).1
        ≠ "" ∧
      (retrieve_context (fun _ => "x") (emptyRagCache String String) "hello"
          .timeout).2.l1_cache = [] ∧
      (retrieve_context (fun _ => "x") (emptyRagCache String String) "hello"
          .timeout).2.l2_cache = [] := by
  refine ⟨?_, ?_, ?_⟩ <;> decide

/-- C9: the cache-key derivation is deterministic: against the fixed
category-pattern table and important-words set (and any fixed md5
primitive), identical input strings always yield identical keys. -/
theorem c9_derive_key_deterministic (md5hex12 : String → String) (q1 q2 : String)
    (h : q1 = q2) :
    create_smart_cache_key md5hex12 q1 = create_smart_cache_key md5hex12 q2 := by
  rw [h]

/-- Witness for C9 on the spec scenario query. -/
theorem c9_derive_key_deterministic_witness :
    ("heavy duty towing cost" : String) = "heavy duty towing cost" ∧
      create_smart_cache_key (fun _ => "x") "heavy duty towing cost"
        = create_smart_cache_key (fun _ => "x") "heavy duty towing cost" :=
  ⟨rfl, c9_derive_key_deterministic (fun _ => "x") "heavy duty towing cost"
    "heavy duty towing cost" rfl⟩

/-! ## Write queue submission (transcription/handler.py)

The handler creates self.write_queue = asyncio.Queue(maxsize=100) and
submits write items with await self.write_queue.put(write_item) inside
try/except asyncio.QueueFull. The queue is embedded with the documented
semantics of asyncio.Queue: put awaits until a free slot is available and
never raises QueueFull (only put_nowait does), so the except branch of the
handler is unreachable and a full queue suspends the producer. -/

structure AsyncioQueue (α : Type) where
  maxsize : Nat
  items : List α

/-- asyncio.Queue.full(). -/
def queueFull {α : Type} (q : AsyncioQueue α) : Bool :=
  0 < q.maxsize && q.maxsize ≤ q.items.length

/-- Behaviour of one await q.put(x): either the item is appended, or the
coroutine suspends until another task frees a slot. -/
inductive PutBehavior (α : Type) where
  | completes (q2 : AsyncioQueue α)
  | suspendsUntilSlotFree

/-- asyncio.Queue.put: append when a slot is free, suspend otherwise; no
exception is ever raised. -/
def queuePut {α : Type} (q : AsyncioQueue α) (x : α) : PutBehavior α :=
  if queueFull q then .suspendsUntilSlotFree
  else .completes { q with items := q.items ++ [x] }

/-- Outcome of the write-submission block, observed by the producer. -/
inductive EnqueueOutcome where
  | written
  | skippedQueueFull
  | blocksCaller
  deriving DecidableEq, Repr

/-- The write-submission block of _handle_user_speech_fast (and identically
of _handle_agent_speech_fast): try: await self.write_queue.put(write_item);
self.async_writes += 1; except asyncio.QueueFull: log and skip. Since put
never raises QueueFull, the except arm maps only the (unreachable) QueueFull
exception to skippedQueueFull, and a suspended put leaves the producer
blocked with the queue unchanged. -/
def handle_speech_enqueue {α : Type} (q : AsyncioQueue α) (write_item : α) :
    EnqueueOutcome × AsyncioQueue α :=
  match queuePut q write_item with
  | .completes q2 => (.written, q2)
  | .suspendsUntilSlotFree => (.blocksCaller, q)

/-- C2 (code bug): with the write queue at its capacity of 100 items, the
submission path blocks the caller inside await put rather than returning the
queue-full outcome: the except asyncio.QueueFull arm can never run because
asyncio.Queue.put suspends instead of raising. The first conjunct evaluates
the failing input; the second shows no input whatsoever can produce the
skippedQueueFull outcome the claim requires. -/
theorem c2_enqueue_blocks_when_full :
    (handle_speech_enqueue ⟨100, List.range 100⟩ (200 : Nat)).1 = .blocksCaller ∧
      ∀ (q : AsyncioQueue Nat) (x : Nat),
        (handle_speech_enqueue q x).1 ≠ .skippedQueueFull := by
  constructor
  · decide
  · intro q x
    unfold handle_speech_enqueue queuePut
    split <;> simp

/-! ## Batch flush path (transcription/handler.py and
call_transcription_storage.py)

_execute_batch_write iterates the batch and calls
storage.save_transcription_segment for each transcription_segment item.
save_transcription_segment builds the segment, spawns the MongoDB insert as
a fire-and-forget task (whose failure is swallowed), updates the metrics and
returns the segment id; it neither raises nor touches the circuit breaker,
which the storage object holds but never invokes on this path. -/

/-- The storage state relevant to the batch flush: the circuit breaker owned
by MongoDBCallTranscriptionStorage, the mongodb_operations counter
incremented by a completed insert, and the count of save_transcription
metric updates (one per save_transcription_segment call). -/
structure TranscriptionStorageState where
  mongo_circuit_breaker : DatabaseCircuitBreaker
  mongodb_operations : Nat
  save_transcription_calls : Nat
  deriving DecidableEq, Repr

/-- One queued write item as consumed by _execute_batch_write: its type tag
and whether the eventual MongoDB insert of its payload would fail. -/
structure WriteItem where
  type : String
  mongoWriteFails : Bool

/-- MongoDBCallTranscriptionStorage.save_transcription_segment: fire and
forget the MongoDB write (a failing insert is logged inside the abandoned
task and swallowed; a completed one bumps mongodb_operations), update the
save_transcription metric, and return normally. The circuit breaker is not
consulted and not updated. -/
def save_transcription_segment (st : TranscriptionStorageState) (mongoWriteFails : Bool) :
    TranscriptionStorageState :=
  { st with
    mongodb_operations := if mongoWriteFails then st.mongodb_operations
      else st.mongodb_operations + 1,
    save_transcription_calls := st.save_transcription_calls + 1 }

/-- OptimizedTranscriptionHandler._execute_batch_write: save every
transcription_segment item of the batch in order. -/
def execute_batch_write (st : TranscriptionStorageState) (batch : List WriteItem) :
    TranscriptionStorageState :=
  batch.foldl
    (fun s item =>
      if item.type = "transcription_segment" then
        save_transcription_segment s item.mongoWriteFails
      else s)
    st

/-- C4 (amended): every transcription-segment item of a batch taken by the
flush loop is attempted by a direct call to the persistence collaborator
that is not wrapped by the circuit breaker: a failure while flushing item i
does not prevent item i+1 from being attempted (the collaborator swallows
its own errors), and the breaker and its failure count are left completely
unchanged rather than incremented. -/
theorem execute_batch_write_cons_seg (st : TranscriptionStorageState)
    (item : WriteItem) (rest : List WriteItem)
    (hty : item.type = "transcription_segment") :
    execute_batch_write st (item :: rest)
      = execute_batch_write (save_transcription_segment st item.mongoWriteFails) rest := by
  simp [execute_batch_write, hty]

theorem execute_batch_write_cons_other (st : TranscriptionStorageState)
    (item : WriteItem) (rest : List WriteItem)
    (hty : ¬ item.type = "transcription_segment") :
    execute_batch_write st (item :: rest) = execute_batch_write st rest := by
  simp [execute_batch_write, hty]

theorem c4_batch_write_bypasses_breaker (st : TranscriptionStorageState)
    (batch : List WriteItem) :
    (execute_batch_write st batch).mongo_circuit_breaker = st.mongo_circuit_breaker ∧
      (execute_batch_write st batch).save_transcription_calls
        = st.save_transcription_calls
          + (batch.filter (fun item => item.type = "transcription_segment")).length := by
  induction batch generalizing st with
  | nil => exact ⟨rfl, rfl⟩
  | cons item rest ih =>
    by_cases hty : item.type = "transcription_segment"
    · rw [execute_batch_write_cons_seg st item rest hty,
        List.filter_cons_of_pos (by simp [hty])]
      have h := ih (save_transcription_segment st item.mongoWriteFails)
      refine ⟨h.1, ?_⟩
      rw [h.2]
      simp only [save_transcription_segment, List.length_cons]
      omega
    · rw [execute_batch_write_cons_other st item rest hty,
        List.filter_cons_of_neg (by simp [hty])]
      exact ih st

/-- The failing input used against C4: a batch whose first item would fail
its MongoDB write, followed by a second item that succeeds, flushed against
a fresh breaker with threshold 5. -/
def c4_batch : List WriteItem :=
  [⟨"transcription_segment", true⟩, ⟨"transcription_segment", false⟩]

/-- The storage state for the C4 counterexample: a fresh circuit breaker
with threshold 5 and timeout 60000 ms and zeroed counters. -/
def c4_storage : TranscriptionStorageState :=
  ⟨mkBreaker 5 60000, 0, 0⟩

/-- Counterexample to C4 as stated: flushing a batch whose first item fails
attempts both items (save_transcription_calls reaches 2, so the second item
was not prevented), but the circuit breaker is left untouched with failure
count 0, not incremented as the claim requires. -/
theorem c4_counterexample_breaker_not_incremented :
    (execute_batch_write c4_storage c4_batch).save_transcription_calls = 2 ∧
      (execute_batch_write c4_storage c4_batch).mongo_circuit_breaker
        = c4_storage.mongo_circuit_breaker ∧
      ¬ (execute_batch_write c4_storage c4_batch).mongo_circuit_breaker.failure_count
          = c4_storage.mongo_circuit_breaker.failure_count + 1 := by
  refine ⟨?_, ?_, ?_⟩ <;> decide

end VoiceAI
